import Mathlib

/-!
# Verification of the gait-data-handler ingestion / session / window-query pipeline

A shallow embedding of the TypeScript source in `src/`:

* `src/handlers/ingestHandler.ts` (batched version) — `handleIngestRequest`
* `src/handlers/sessionHandler.ts` — `handleStartSession`, `handleEndSession`
* `src/handlers/queryHandler.ts` — `handleQueryDataByExperimentName`

The backing D1/SQLite store is an external collaborator; its operations
(`insert`, `batch`, `update` with `meta.changes`, `SELECT ... first/all`)
are modelled from the spec (§6) as pure functions over in-memory tables.
Untrusted JSON fields that the code duck-type-checks at runtime are modelled
with a JSON-value type `JsonVal`; JSON numbers are modelled as integers
(the claims under verification perform no floating-point arithmetic).
-/

/-- JSON-like runtime value, the shape of untrusted client payload fields
that the handlers inspect dynamically (`typeof x === 'string'`,
`Array.isArray(x)`, ...). Numbers are modelled as integers. -/
inductive JsonVal where
  | jnull
  | jbool (b : Bool)
  | jnum (n : Int)
  | jstr (s : String)
  | jarr (elems : List JsonVal)
  | jobj (fields : List (String × JsonVal))

/-- `typeof v === 'string'`. -/
def JsonVal.isStr : JsonVal → Bool
  | .jstr _ => true
  | _ => false

/-- The underlying string of a `jstr` (only used after `isStr` holds). -/
def JsonVal.getStr : JsonVal → String
  | .jstr s => s
  | _ => ""

/-- `Array.isArray(v) && v.length > 0`. -/
def JsonVal.isNonEmptyArr : JsonVal → Bool
  | .jarr (_ :: _) => true
  | _ => false

/-! ## Decimal digit printing (the numeric part of `JSON.stringify`) -/

/-- The decimal digit character for `d < 10` (`9` is the catch-all). -/
def digitChar (d : Nat) : Char :=
  match d with
  | 0 => '0' | 1 => '1' | 2 => '2' | 3 => '3' | 4 => '4'
  | 5 => '5' | 6 => '6' | 7 => '7' | 8 => '8' | _ => '9'

/-- Fuel-driven decimal printer for naturals (most significant digit first);
the fuel is only a structural-recursion device, `natDigits` always supplies
enough. -/
def natDigitsAux : Nat → Nat → List Char
  | 0, _ => []
  | fuel+1, n =>
    if n < 10 then [digitChar n] else natDigitsAux fuel (n / 10) ++ [digitChar (n % 10)]

/-- Decimal digit characters of a natural number, e.g. `natDigits 1234 = ['1','2','3','4']`. -/
def natDigits (n : Nat) : List Char := natDigitsAux (n + 1) n

/-- Decimal printing of an integer, as `JSON.stringify` renders integral numbers. -/
def intChars (i : Int) : List Char :=
  if i < 0 then '-' :: natDigits i.natAbs else natDigits i.toNat

/-! ## `JSON.stringify` over `JsonVal` -/

/-- JSON string escaping of one character (quote and backslash). -/
def escapeChar (c : Char) : List Char :=
  if c = '"' ∨ c = '\\' then ['\\', c] else [c]

/-- JSON string escaping of a character sequence. -/
def escapeChars : List Char → List Char
  | [] => []
  | c :: cs => escapeChar c ++ escapeChars cs

mutual

/-- `JSON.stringify`, producing the character sequence of the serialized value. -/
def serializeJsonChars : JsonVal → List Char
  | .jnull => ['n', 'u', 'l', 'l']
  | .jbool true => ['t', 'r', 'u', 'e']
  | .jbool false => ['f', 'a', 'l', 's', 'e']
  | .jnum n => intChars n
  | .jstr s => '"' :: escapeChars s.toList ++ ['"']
  | .jarr xs => '[' :: serializeArr xs ++ [']']
  | .jobj fs => '{' :: serializeFields fs ++ ['}']

/-- Comma-separated serialization of array elements. -/
def serializeArr : List JsonVal → List Char
  | [] => []
  | [x] => serializeJsonChars x
  | x :: y :: xs => serializeJsonChars x ++ ',' :: serializeArr (y :: xs)

/-- Comma-separated serialization of object fields, key order preserved. -/
def serializeFields : List (String × JsonVal) → List Char
  | [] => []
  | [(k, v)] => '"' :: escapeChars k.toList ++ '"' :: ':' :: serializeJsonChars v
  | (k, v) :: f :: fs =>
    ('"' :: escapeChars k.toList ++ '"' :: ':' :: serializeJsonChars v) ++
      ',' :: serializeFields (f :: fs)

end

/-- `JSON.stringify` as a `String`-producing function. -/
def serializeJson (v : JsonVal) : String := String.mk (serializeJsonChars v)

/-! ## JavaScript truthiness helpers -/

/-- `x || null` on an optional string: the empty string is falsy in JS. -/
def jsStrOrNull : Option String → Option String
  | some s => if s = "" then none else some s
  | none => none

/-- `x || 'default'` on an optional string. -/
def jsStrOrDefault (o : Option String) (d : String) : String :=
  match o with
  | some s => if s = "" then d else s
  | none => d

/-- ASCII lowercasing of one character (`String.prototype.toLowerCase`). -/
def lowerChar (c : Char) : Char :=
  if 'A' ≤ c ∧ c ≤ 'Z' then Char.ofNat (c.toNat + 32) else c

/-- ASCII lowercasing of a character sequence. -/
def lowerChars (cs : List Char) : List Char := cs.map lowerChar

/-- Does the second list start with the first? -/
def charsStartWith : List Char → List Char → Bool
  | [], _ => true
  | _ :: _, [] => false
  | a :: as, b :: bs => a = b && charsStartWith as bs

/-- Substring containment on character sequences (`String.prototype.includes`). -/
def charsContain (needle : List Char) : List Char → Bool
  | [] => needle.isEmpty
  | c :: cs => charsStartWith needle (c :: cs) || charsContain needle cs

/-! ## Data model: readings and sessions -/

/-- One row of the `gait_data` table:
`(device, timestamp, quaternions, note)`, the quaternion payload held as a
serialized text blob. -/
structure GaitDataRecord where
  device : String
  timestamp : String
  quaternions : String
  note : Option String
deriving DecidableEq, Repr

/-- One second-entry of the batched ingestion payload (`SecondData` in
`types.ts`); `timestamp` and `quaternions` are untrusted JSON fields that
the handler duck-type-checks. -/
structure SecondData where
  timestamp : JsonVal
  quaternions : JsonVal
  note : Option String

/-- The batched ingestion payload (`Esp32BatchedDataPayload` in `types.ts`);
a missing/falsy `device` is modelled as `""`, a missing or non-array
`seconds_data` as `[]` (the handler rejects both with the same response). -/
structure Esp32BatchedDataPayload where
  device : String
  seconds_data : List SecondData

/-- One row of the `experiment_sessions` table. -/
structure SessionRow where
  experiment_name : String
  start_time : String
  end_time : Option String
  notes : Option String
deriving DecidableEq, Repr

/-- Per-operation result of a D1 statement (`{success, error}`). -/
structure D1Res where
  success : Bool
  error : Option String
deriving DecidableEq, Repr

/-- Result of a D1 `run()` on an UPDATE, with `meta.changes`. -/
structure D1RunRes where
  success : Bool
  error : Option String
  changes : Nat
deriving DecidableEq, Repr

/-! ## Ingestion pipeline (`ingestHandler.ts`, batched version) -/

/-- The per-entry validation at `ingestHandler.ts:108`:
`typeof secondEntry.timestamp !== 'string' || !Array.isArray(secondEntry.quaternions)
|| secondEntry.quaternions.length === 0` means the entry is skipped; this
predicate is the *pass* condition. -/
def validSecondEntry (e : SecondData) : Bool :=
  e.timestamp.isStr && e.quaternions.isNonEmptyArr

/-- The prepared INSERT for one surviving entry (`ingestHandler.ts:123-130`):
`(device, timestamp, JSON.stringify(quaternions), note || null)`. -/
def mkGaitRow (device : String) (e : SecondData) : GaitDataRecord :=
  { device := device
    timestamp := e.timestamp.getStr
    quaternions := serializeJson e.quaternions
    note := jsStrOrNull e.note }

/-- The statement list built by the loop at `ingestHandler.ts:106-131`:
valid entries become INSERT statements, invalid ones are skipped. -/
def buildStmts (device : String) (entries : List SecondData) : List GaitDataRecord :=
  entries.filterMap fun e => if validSecondEntry e then some (mkGaitRow device e) else none

/-- Responses of the batched ingestion handler, one constructor per
`return new Response(...)` of `ingestHandler.ts` (method check and JSON
parsing happen before the embedded logic). -/
inductive IngestResponse where
  /-- 400: missing `device` or missing/empty `seconds_data`. -/
  | badRequestMissing
  /-- 400: `All data entries in the batch were invalid.` -/
  | badRequestAllInvalid
  /-- 400: defensive duplicate branch for an empty batch (`ingestHandler.ts:139`). -/
  | badRequestNoEntries
  /-- 201: `Batch data ingested successfully. N records stored.` -/
  | created (count : Nat)
  /-- 207: mixed outcome, carrying the success count, the submitted total,
  and the collected per-operation error details. -/
  | multiStatus (successCount : Nat) (total : Nat) (errors : List String)
deriving DecidableEq, Repr

/-- `successfulInserts` counting of `ingestHandler.ts:154-162`. -/
def countSuccesses (rs : List D1Res) : Nat := (rs.filter (·.success)).length

/-- The `errors` list collected at `ingestHandler.ts:154-162`:
`errors.push(result.error || 'Unknown D1 batch error')` for each failure. -/
def collectErrors (rs : List D1Res) : List String :=
  rs.filterMap fun r =>
    if r.success then none else some (jsStrOrDefault r.error "Unknown D1 batch error")

/-- The batched ingestion handler (`ingestHandler.ts:83-193`), after method
check and JSON parsing. `store` models `env.DB.batch`: it maps the submitted
statement list to one `D1Res` per executed statement. -/
def handleIngestRequest (p : Esp32BatchedDataPayload)
    (store : List GaitDataRecord → List D1Res) : IngestResponse :=
  if p.device = "" ∨ p.seconds_data.isEmpty then .badRequestMissing
  else
    let stmts := buildStmts p.device p.seconds_data
    if stmts.isEmpty ∧ ¬ p.seconds_data.isEmpty then .badRequestAllInvalid
    else if stmts.isEmpty ∧ p.seconds_data.isEmpty then .badRequestNoEntries
    else
      let batchResults := store stmts
      if batchResults.all (·.success) then .created (countSuccesses batchResults)
      else .multiStatus (countSuccesses batchResults) stmts.length (collectErrors batchResults)

/-! ## Session registry store operations

Modelled from the spec: the storage engine itself is an external
collaborator (spec §1, §6). -/

/-- `SELECT ... FROM experiment_sessions WHERE experiment_name = ?` with
`.first()`: point lookup by the primary key. -/
def findSessionRow (db : List SessionRow) (name : String) : Option SessionRow :=
  db.find? fun s => s.experiment_name = name

/-- Modelled from the spec: the SQLite error message reported when the
`experiment_name` primary-key uniqueness constraint rejects an INSERT. -/
def uniqueViolationMsg : String :=
  "UNIQUE constraint failed: experiment_sessions.experiment_name"

/-- Modelled from the spec: `insert(table, columns, values) -> {success, error}`
(spec §6); the unique-identity constraint on `experiment_name` rejects a
duplicate insert and the table is left unchanged. -/
def insertSessionRow (db : List SessionRow) (row : SessionRow) :
    List SessionRow × D1Res :=
  if db.any (fun s => s.experiment_name = row.experiment_name)
  then (db, { success := false, error := some uniqueViolationMsg })
  else (db ++ [row], { success := true, error := none })

/-- Modelled from the spec: `update(table, set, where, values) ->
{success, error, rowsAffected}` (spec §6) for
`UPDATE experiment_sessions SET end_time = ? WHERE experiment_name = ?`;
`changes` is the number of rows matched by the WHERE clause. -/
def updateSessionEnd (db : List SessionRow) (name endT : String) :
    List SessionRow × D1RunRes :=
  ((db.map fun s =>
      if s.experiment_name = name then { s with end_time := some endT } else s),
   { success := true
     error := none
     changes := (db.filter fun s => s.experiment_name = name).length })

/-! ## Session lifecycle handlers (`sessionHandler.ts`) -/

/-- Responses of `handleStartSession`, one constructor per response of
`sessionHandler.ts:11-123` (after method check and JSON parsing). -/
inductive StartResponse where
  /-- 400: missing `experiment_name`. -/
  | badRequest
  /-- 409: duplicate experiment name, the message names the offending session. -/
  | conflict (name : String)
  /-- 500: other database error. -/
  | serverError (detail : Option String)
  /-- 201: session created, carrying the assigned start time. -/
  | created (name : String) (start_time : String) (notes : Option String)
deriving DecidableEq, Repr

/-- `handleStartSession` (`sessionHandler.ts:11-123`): inserts
`(experiment_name, start_time, notes)` and classifies a store failure as a
conflict when the lowercased error message contains a uniqueness-violation
substring (`sessionHandler.ts:87-96`). `now` models `new Date().toISOString()`.
Returns the updated registry and the response. -/
def handleStartSession (name : String) (notes : Option String) (now : String)
    (db : List SessionRow) : List SessionRow × StartResponse :=
  if name = "" then (db, .badRequest)
  else
    let row : SessionRow :=
      { experiment_name := name, start_time := now, end_time := none
        notes := jsStrOrNull notes }
    let res := insertSessionRow db row
    if res.2.success then (res.1, .created name now notes)
    else
      let msg := lowerChars (res.2.error.getD "").toList
      if charsContain "unique constraint failed".toList msg ∨
         charsContain "primary key constraint failed".toList msg
      then (res.1, .conflict name)
      else (res.1, .serverError res.2.error)

/-- Responses of `handleEndSession`, one constructor per response of
`sessionHandler.ts:131-229` (after method check and JSON parsing). -/
inductive EndResponse where
  /-- 400: missing `experiment_name`. -/
  | badRequest
  /-- 404: no session row matched the name. -/
  | notFound (name : String)
  /-- 500: database error. -/
  | serverError (detail : Option String)
  /-- 200: session ended, carrying the assigned end time. -/
  | okEnded (name : String) (end_time : String)
deriving DecidableEq, Repr

/-- `handleEndSession` (`sessionHandler.ts:131-229`): updates `end_time` by
name; `meta.changes = 0` yields 404. `now` models `new Date().toISOString()`.
Returns the updated registry and the response. -/
def handleEndSession (name : String) (now : String) (db : List SessionRow) :
    List SessionRow × EndResponse :=
  if name = "" then (db, .badRequest)
  else
    let res := updateSessionEnd db name now
    if res.2.success then
      if res.2.changes > 0 then (res.1, .okEnded name now)
      else (res.1, .notFound name)
    else (res.1, .serverError res.2.error)

/-! ## Window query engine (`queryHandler.ts`) -/

/-- The WHERE clause of the range query (`queryHandler.ts:334`):
`timestamp >= start AND timestamp <= end`, string comparison. -/
def inWindow (startT endT : String) (r : GaitDataRecord) : Bool :=
  decide (startT ≤ r.timestamp) && decide (r.timestamp ≤ endT)

/-- The `ORDER BY timestamp, device ASC` key comparison as a Boolean
relation: primarily timestamp ascending, secondarily device ascending. -/
def keyLe (a b : GaitDataRecord) : Bool :=
  decide (a.timestamp < b.timestamp) ||
    (decide (a.timestamp = b.timestamp) && decide (a.device ≤ b.device))

/-- `keyLe` as a decidable relation, for use with `List.insertionSort`. -/
def keyRel (a b : GaitDataRecord) : Prop := keyLe a b = true

instance : DecidableRel keyRel := fun a b =>
  inferInstanceAs (Decidable (keyLe a b = true))

/-- Modelled from the spec: the Reading Store range query
`SELECT device, timestamp, quaternions, note FROM gait_data WHERE
timestamp >= ? AND timestamp <= ? ORDER BY timestamp, device ASC`
(spec §6 `selectMany`): the matching rows, sorted by the ORDER BY key. -/
def selectGaitRange (readings : List GaitDataRecord) (startT endT : String) :
    List GaitDataRecord :=
  List.insertionSort keyRel (readings.filter (inWindow startT endT))

/-- The JSON body of a successful window-query response
(`QueryDataResponse` in `types.ts`), together with the HTTP status used
(202 for an open session, 200 for a closed one). -/
structure QueryDataResponse where
  experiment_name : String
  session_notes : Option String
  start_time : String
  end_time : Option String
  data_count : Nat
  gait_data_records : List GaitDataRecord
  status : Nat
deriving DecidableEq, Repr

/-- Results of `handleQueryDataByExperimentName`, one constructor per
response of `queryHandler.ts:274-382`. -/
inductive QueryResult where
  /-- 400: no `name` query parameter. -/
  | missingName
  /-- 404: no session with that name. -/
  | notFound (name : String)
  /-- 202 or 200 with a `QueryDataResponse` body. -/
  | ok (resp : QueryDataResponse)
deriving DecidableEq, Repr

/-- `handleQueryDataByExperimentName` (`queryHandler.ts:274-382`):
resolve the session by name; if its end time is falsy (`!sessionInfo.end_time`
— null or the empty string) answer 202 with zero count and an empty list
without touching the reading store; if closed run the range query and answer
200 with the ordered rows and their count.
`name` models `url.searchParams.get('name')`. -/
def handleQueryDataByExperimentName (name : Option String)
    (db : List SessionRow) (readings : List GaitDataRecord) : QueryResult :=
  match name with
  | none => .missingName
  | some n =>
    if n = "" then .missingName
    else
      match findSessionRow db n with
      | none => .notFound n
      | some s =>
        match s.end_time with
        | none =>
          .ok { experiment_name := n
                session_notes := jsStrOrNull s.notes
                start_time := s.start_time
                end_time := none
                data_count := 0
                gait_data_records := []
                status := 202 }
        | some et =>
          if et = "" then
            .ok { experiment_name := n
                  session_notes := jsStrOrNull s.notes
                  start_time := s.start_time
                  end_time := none
                  data_count := 0
                  gait_data_records := []
                  status := 202 }
          else
            let records := selectGaitRange readings s.start_time et
            .ok { experiment_name := n
                  session_notes := jsStrOrNull s.notes
                  start_time := s.start_time
                  end_time := some et
                  data_count := records.length
                  gait_data_records := records
                  status := 200 }

/-! ## The spec's claimed per-entry validation (for comparison with the code's) -/

/-- A 4-component numeric record `{w, x, y, z}`, as the spec describes a
quaternion sample. -/
def isQuatRecord : JsonVal → Bool
  | .jobj [("w", .jnum _), ("x", .jnum _), ("y", .jnum _), ("z", .jnum _)] => true
  | _ => false

/-- The per-entry validation as the spec's words claim it: timestamp a
string and the quaternion-sample list a non-empty collection of
4-component numeric records. Stated for comparison with the code's
`validSecondEntry`, which checks no element shapes. -/
def specValidSecondEntry (e : SecondData) : Bool :=
  e.timestamp.isStr &&
    (match e.quaternions with
     | .jarr [] => false
     | .jarr xs => xs.all isQuatRecord
     | _ => false)

/-! ## Deserialization of the stored quaternion payload (round trip) -/

/-- One quaternion sample as a 4-component record of (integer-modelled)
numbers. -/
structure QuatSample where
  w : Int
  x : Int
  y : Int
  z : Int
deriving DecidableEq, Repr

/-- The JSON value a client submits for one quaternion sample. -/
def quatToJson (q : QuatSample) : JsonVal :=
  .jobj [("w", .jnum q.w), ("x", .jnum q.x), ("y", .jnum q.y), ("z", .jnum q.z)]

/-- Take the maximal leading run of decimal digits. -/
def takeDigits : List Char → List Char × List Char
  | [] => ([], [])
  | c :: cs =>
    if c.isDigit then
      let p := takeDigits cs
      (c :: p.1, p.2)
    else ([], c :: cs)

/-- Numeric value of a run of decimal digit characters. -/
def digitsVal (ds : List Char) : Nat :=
  ds.foldl (fun a c => 10 * a + (c.toNat - 48)) 0

/-- Parse a decimal natural number, returning it and the rest of the input. -/
def parseNatChars (input : List Char) : Option (Nat × List Char) :=
  let p := takeDigits input
  if p.1 = [] then none else some (digitsVal p.1, p.2)

/-- Parse a decimal integer with an optional leading minus sign. -/
def parseIntChars (input : List Char) : Option (Int × List Char) :=
  match input with
  | [] => none
  | c :: cs =>
    if c = '-' then
      match parseNatChars cs with
      | some (n, r) => some (-(n : Int), r)
      | none => none
    else
      match parseNatChars (c :: cs) with
      | some (n, r) => some ((n : Int), r)
      | none => none

/-- Consume an expected literal character sequence. -/
def expectLit : List Char → List Char → Option (List Char)
  | [], input => some input
  | _ :: _, [] => none
  | c :: cs, d :: ds => if c = d then expectLit cs ds else none

/-- Parse one serialized quaternion record `{"w":_,"x":_,"y":_,"z":_}`. -/
def parseQuat (input : List Char) : Option (QuatSample × List Char) :=
  match expectLit ['{', '"', 'w', '"', ':'] input with
  | none => none
  | some r1 =>
    match parseIntChars r1 with
    | none => none
    | some (w, r2) =>
      match expectLit [',', '"', 'x', '"', ':'] r2 with
      | none => none
      | some r3 =>
        match parseIntChars r3 with
        | none => none
        | some (x, r4) =>
          match expectLit [',', '"', 'y', '"', ':'] r4 with
          | none => none
          | some r5 =>
            match parseIntChars r5 with
            | none => none
            | some (y, r6) =>
              match expectLit [',', '"', 'z', '"', ':'] r6 with
              | none => none
              | some r7 =>
                match parseIntChars r7 with
                | none => none
                | some (z, r8) =>
                  match expectLit ['}'] r8 with
                  | none => none
                  | some r9 => some (⟨w, x, y, z⟩, r9)

/-- Parse the comma-separated quaternion records up to the closing `]`;
the fuel only drives structural recursion. -/
def parseQuatListAux : Nat → List Char → Option (List QuatSample × List Char)
  | 0, _ => none
  | fuel+1, input =>
    match parseQuat input with
    | none => none
    | some (q, rest) =>
      match rest with
      | ']' :: rest2 => some ([q], rest2)
      | ',' :: rest2 =>
        match parseQuatListAux fuel rest2 with
        | some (qs, r) => some (q :: qs, r)
        | none => none
      | _ => none

/-- Parse the body of a serialized quaternion array, after the opening `[`. -/
def parseListBody (rest : List Char) : Option (List QuatSample) :=
  if rest.head? = some ']' then (if rest.tail = [] then some [] else none)
  else
    match parseQuatListAux rest.length rest with
    | some (qs, []) => some qs
    | _ => none

/-- Deserialize a stored quaternion payload (`JSON.parse` on the blob the
window query returns) into the ordered list of 4-component records. -/
def parseQuatList (s : String) : Option (List QuatSample) :=
  match s.toList with
  | '[' :: rest => parseListBody rest
  | _ => none

/-! ## Helper lemmas -/

theorem length_filter_add_length_filter_not {α : Type} (p : α → Bool) (l : List α) :
    (l.filter p).length + (l.filter fun a => !p a).length = l.length := by
  induction l with
  | nil => rfl
  | cons a l ih =>
    cases h : p a <;> simp [List.filter_cons, h] <;> omega

theorem countSuccesses_add_collectErrors (rs : List D1Res) :
    countSuccesses rs + (collectErrors rs).length = rs.length := by
  induction rs with
  | nil => rfl
  | cons r rs ih =>
    cases h : r.success <;>
      simp [countSuccesses, collectErrors, List.filter_cons, List.filterMap_cons, h] at ih ⊢ <;>
      omega

theorem countSuccesses_of_all_false (rs : List D1Res)
    (h : ∀ r ∈ rs, r.success = false) : countSuccesses rs = 0 := by
  simp only [countSuccesses, List.length_eq_zero]
  exact List.filter_eq_nil_iff.mpr (by intro r hr; simp [h r hr])

theorem collectErrors_length_of_all_false (rs : List D1Res) :
    (∀ r ∈ rs, r.success = false) → (collectErrors rs).length = rs.length := by
  induction rs with
  | nil => intro _; rfl
  | cons r rs ih =>
    intro h
    have hr : r.success = false := h r (List.mem_cons_self r rs)
    have ih2 := ih fun x hx => h x (List.mem_cons_of_mem r hx)
    simp only [collectErrors, List.filterMap_cons, hr, if_false, Bool.false_eq_true,
      ite_false, List.length_cons]
    simpa [collectErrors] using ih2

theorem buildStmts_eq_filter_map (d : String) (es : List SecondData) :
    buildStmts d es = (es.filter validSecondEntry).map (mkGaitRow d) := by
  induction es with
  | nil => rfl
  | cons e es ih =>
    cases h : validSecondEntry e <;>
      simp [buildStmts, List.filterMap_cons, List.filter_cons, h, ← ih]

/-- A valid second-entry fixture: string timestamp, one well-formed
4-component quaternion sample. -/
def goodEntry : SecondData :=
  ⟨.jstr "2020-01-01T00:00:01Z", .jarr [quatToJson ⟨1, 0, 0, 0⟩], none⟩

/-- A malformed second-entry fixture: numeric timestamp, quaternions not an
array — skipped by the handler's per-entry validation. -/
def badEntry : SecondData := ⟨.jnum 0, .jnull, none⟩

/-- Store behavior in which every submitted statement succeeds. -/
def allOkStore : List GaitDataRecord → List D1Res :=
  fun l => l.map fun _ => ⟨true, none⟩

/-- Store behavior in which every submitted statement fails. -/
def allFailStore : List GaitDataRecord → List D1Res :=
  fun l => l.map fun _ => ⟨false, some "disk I/O error"⟩

/-- When the batch-level checks pass and at least one statement survives,
the handler reaches the `env.DB.batch` call and the outcome-counting loop. -/
theorem handleIngestRequest_batch (p : Esp32BatchedDataPayload)
    (store : List GaitDataRecord → List D1Res)
    (hd : p.device ≠ "") (hne : p.seconds_data ≠ [])
    (hstmts : buildStmts p.device p.seconds_data ≠ []) :
    handleIngestRequest p store =
      if (store (buildStmts p.device p.seconds_data)).all (·.success)
      then .created (countSuccesses (store (buildStmts p.device p.seconds_data)))
      else .multiStatus (countSuccesses (store (buildStmts p.device p.seconds_data)))
        (buildStmts p.device p.seconds_data).length
        (collectErrors (store (buildStmts p.device p.seconds_data))) := by
  have h1 : ¬ (p.device = "" ∨ p.seconds_data.isEmpty = true) := by
    rintro (h | h)
    · exact hd h
    · exact hne (List.isEmpty_iff.mp h)
  have h2 : ¬ ((buildStmts p.device p.seconds_data).isEmpty = true ∧
      ¬ (p.seconds_data.isEmpty = true)) := by
    rintro ⟨h, _⟩
    exact hstmts (List.isEmpty_iff.mp h)
  have h3 : ¬ ((buildStmts p.device p.seconds_data).isEmpty = true ∧
      p.seconds_data.isEmpty = true) := by
    rintro ⟨h, _⟩
    exact hstmts (List.isEmpty_iff.mp h)
  simp only [handleIngestRequest, if_neg h1, if_neg h2, if_neg h3]

/-- **C3, counterexample.** The claim says an entry is skipped iff it fails a
validation requiring the quaternion list to consist of 4-component numeric
records. The entry `{timestamp: "2020-01-01T00:00:00Z", quaternions: [3]}`
fails that claimed validation, yet the code does not skip it: it is
submitted to the store as an INSERT with payload `"[3]"`. -/
theorem buildStmts_element_shape_unchecked_cex :
    specValidSecondEntry ⟨.jstr "2020-01-01T00:00:00Z", .jarr [.jnum 3], none⟩ = false ∧
    buildStmts "hip" [⟨.jstr "2020-01-01T00:00:00Z", .jarr [.jnum 3], none⟩] =
      [{ device := "hip", timestamp := "2020-01-01T00:00:00Z",
         quaternions := "[3]", note := none }] := by
  exact ⟨by decide, by decide⟩

/-- **C3 (amended).** During batch ingestion an entry is skipped (excluded
from the store submission, without aborting the remaining entries) iff it
fails the code's per-entry validation — the timestamp must be a string and
the quaternion list a non-empty array; element shapes are not checked — and
the entries passing validation are all submitted, in order. -/
theorem buildStmts_skips_exactly_code_invalid (d : String) (es : List SecondData) :
    buildStmts d es = (es.filter validSecondEntry).map (mkGaitRow d) :=
  buildStmts_eq_filter_map d es

/-- **C7.** A non-empty batch in which every entry fails per-entry validation
is rejected as a client error ("all entries invalid"): no statement is built
and, for every store behavior, the response is the 400 rejection — the store
is never consulted. -/
theorem handleIngest_all_entries_invalid (p : Esp32BatchedDataPayload)
    (store : List GaitDataRecord → List D1Res)
    (hd : p.device ≠ "") (hne : p.seconds_data ≠ [])
    (hinv : ∀ e ∈ p.seconds_data, validSecondEntry e = false) :
    buildStmts p.device p.seconds_data = [] ∧
    handleIngestRequest p store = .badRequestAllInvalid := by
  have hstmts : buildStmts p.device p.seconds_data = [] := by
    refine List.filterMap_eq_nil_iff.mpr ?_
    intro e he
    simp [hinv e he]
  refine ⟨hstmts, ?_⟩
  have h1 : ¬ (p.device = "" ∨ p.seconds_data.isEmpty = true) := by
    rintro (h | h)
    · exact hd h
    · exact hne (List.isEmpty_iff.mp h)
  have h2 : (buildStmts p.device p.seconds_data).isEmpty = true ∧
      ¬ (p.seconds_data.isEmpty = true) := by
    refine ⟨by simp [hstmts], ?_⟩
    intro h
    exact hne (List.isEmpty_iff.mp h)
  simp only [handleIngestRequest, if_neg h1, if_pos h2]

/-- Witness for C7: a batch with one malformed entry (numeric timestamp)
is rejected with the 400 "all entries invalid" response. -/
theorem handleIngest_all_entries_invalid_witness :
    buildStmts "hip" [badEntry] = [] ∧
    handleIngestRequest ⟨"hip", [badEntry]⟩ allOkStore = .badRequestAllInvalid :=
  handleIngest_all_entries_invalid ⟨"hip", [badEntry]⟩ allOkStore (by decide)
    (List.cons_ne_nil _ _)
    (by intro e he; rw [List.mem_singleton] at he; subst he; rfl)

/-- **C2, counterexample.** N = 2 entries, K = 1 malformed (`badEntry`), and
the store succeeds on everything submitted. Exactly N − K = 1 statement is
submitted, but the response is the plain 201 full-success response
`created 1` — not a 207 mixed result carrying the malformed entry as a
failure detail. -/
theorem handleIngest_no_partial_report_cex :
    (buildStmts "hip" [goodEntry, badEntry]).length = 1 ∧
    handleIngestRequest ⟨"hip", [goodEntry, badEntry]⟩ allOkStore = .created 1 := by
  exact ⟨by decide, by decide⟩

/-- **C2 (amended).** For every batch of N entries of which K are malformed
with 0 < K < N, where every surviving store operation succeeds, batch
ingestion submits and stores exactly N − K rows and responds with the
full-success response reporting N − K records stored; the K skipped entries
are only logged and carry no per-entry failure details in the response. -/
theorem handleIngest_partial_skip_full_success (p : Esp32BatchedDataPayload)
    (store : List GaitDataRecord → List D1Res)
    (hd : p.device ≠ "")
    (hK : 0 < (p.seconds_data.filter fun e => !validSecondEntry e).length)
    (hKN : (p.seconds_data.filter fun e => !validSecondEntry e).length <
      p.seconds_data.length)
    (hstore : store (buildStmts p.device p.seconds_data) =
      (buildStmts p.device p.seconds_data).map fun _ => ⟨true, none⟩) :
    (buildStmts p.device p.seconds_data).length =
      p.seconds_data.length -
        (p.seconds_data.filter fun e => !validSecondEntry e).length ∧
    handleIngestRequest p store =
      .created (p.seconds_data.length -
        (p.seconds_data.filter fun e => !validSecondEntry e).length) := by
  have hpart := length_filter_add_length_filter_not validSecondEntry p.seconds_data
  have hlen : (buildStmts p.device p.seconds_data).length =
      p.seconds_data.length -
        (p.seconds_data.filter fun e => !validSecondEntry e).length := by
    rw [buildStmts_eq_filter_map, List.length_map]
    omega
  have hne : p.seconds_data ≠ [] := by
    intro h
    rw [h] at hKN
    simp at hKN
  have hstmts : buildStmts p.device p.seconds_data ≠ [] := by
    intro h
    rw [h] at hlen
    simp at hlen
    omega
  refine ⟨hlen, ?_⟩
  rw [handleIngestRequest_batch p store hd hne hstmts, hstore]
  have hall : ((buildStmts p.device p.seconds_data).map
      (fun _ => (⟨true, none⟩ : D1Res))).all (·.success) = true := by
    simp [List.all_map]
  rw [if_pos hall]
  have hcount : countSuccesses ((buildStmts p.device p.seconds_data).map
      fun _ => (⟨true, none⟩ : D1Res)) = (buildStmts p.device p.seconds_data).length := by
    simp [countSuccesses, List.filter_map]
  rw [hcount, hlen]

/-- Witness for C2 (amended): N = 2, K = 1, the single surviving statement
is stored and the response is `created 1`. -/
theorem handleIngest_partial_skip_full_success_witness :
    (buildStmts "hip" [goodEntry, badEntry]).length =
      ([goodEntry, badEntry] : List SecondData).length -
        (([goodEntry, badEntry] : List SecondData).filter
          fun e => !validSecondEntry e).length ∧
    handleIngestRequest ⟨"hip", [goodEntry, badEntry]⟩ allOkStore =
      .created (([goodEntry, badEntry] : List SecondData).length -
        (([goodEntry, badEntry] : List SecondData).filter
          fun e => !validSecondEntry e).length) :=
  handleIngest_partial_skip_full_success ⟨"hip", [goodEntry, badEntry]⟩ allOkStore
    (by decide) (by decide) (by decide) rfl

/-- **C9.** In the mixed-result (207) response, every per-operation store
outcome is counted exactly once: when the store returns one outcome per
submitted statement, the reported success count plus the number of collected
failure details equals the reported total of submitted operations. -/
theorem handleIngest_multiStatus_accounting (p : Esp32BatchedDataPayload)
    (store : List GaitDataRecord → List D1Res) (c t : Nat) (es : List String)
    (hlen : (store (buildStmts p.device p.seconds_data)).length =
      (buildStmts p.device p.seconds_data).length)
    (hres : handleIngestRequest p store = .multiStatus c t es) :
    c + es.length = t := by
  simp only [handleIngestRequest] at hres
  split_ifs at hres <;>
    first
      | exact IngestResponse.noConfusion hres
      | (injection hres with h1 h2 h3
         subst h1
         subst h2
         subst h3
         rw [countSuccesses_add_collectErrors, hlen])

/-- Witness for C9: one submitted statement fails; the 207 response reports
0 successes and 1 failure detail, and 0 + 1 = 1 submitted operation. -/
theorem handleIngest_multiStatus_accounting_witness :
    (0 : Nat) + (["disk I/O error"] : List String).length = 1 :=
  handleIngest_multiStatus_accounting ⟨"hip", [goodEntry]⟩ allFailStore
    0 1 ["disk I/O error"] (by decide) (by decide)

/-- **C10.** When every submitted operation fails (zero successes), batch
ingestion still answers with the mixed-result (207) response carrying a
success count of zero and one failure detail per submitted operation — not
a server-error response. -/
theorem handleIngest_all_ops_failed_still_multiStatus (p : Esp32BatchedDataPayload)
    (store : List GaitDataRecord → List D1Res)
    (hd : p.device ≠ "")
    (hstmts : buildStmts p.device p.seconds_data ≠ [])
    (hlen : (store (buildStmts p.device p.seconds_data)).length =
      (buildStmts p.device p.seconds_data).length)
    (hfail : ∀ r ∈ store (buildStmts p.device p.seconds_data), r.success = false) :
    handleIngestRequest p store =
      .multiStatus 0 (buildStmts p.device p.seconds_data).length
        (collectErrors (store (buildStmts p.device p.seconds_data))) ∧
    (collectErrors (store (buildStmts p.device p.seconds_data))).length =
      (buildStmts p.device p.seconds_data).length := by
  have hne : p.seconds_data ≠ [] := by
    intro h
    apply hstmts
    rw [h]
    rfl
  have hrs_ne : store (buildStmts p.device p.seconds_data) ≠ [] := by
    intro h
    rw [h] at hlen
    exact hstmts (List.length_eq_zero.mp hlen.symm)
  have hallfalse : (store (buildStmts p.device p.seconds_data)).all (·.success) = false := by
    obtain ⟨r, hr⟩ := List.exists_mem_of_ne_nil _ hrs_ne
    refine Bool.eq_false_iff.mpr ?_
    intro hall
    rw [List.all_eq_true] at hall
    have := hall r hr
    rw [hfail r hr] at this
    exact absurd this (by simp)
  constructor
  · rw [handleIngestRequest_batch p store hd hne hstmts, hallfalse]
    simp only [Bool.false_eq_true, if_false, ite_false]
    rw [countSuccesses_of_all_false _ hfail]
  · rw [collectErrors_length_of_all_false _ hfail, hlen]

/-- Witness for C10: one submitted statement, the store fails it; the
response is the 207 mixed result with zero successes and one failure detail. -/
theorem handleIngest_all_ops_failed_still_multiStatus_witness :
    handleIngestRequest ⟨"hip", [goodEntry]⟩ allFailStore =
      .multiStatus 0 (buildStmts "hip" [goodEntry]).length
        (collectErrors (allFailStore (buildStmts "hip" [goodEntry]))) ∧
    (collectErrors (allFailStore (buildStmts "hip" [goodEntry]))).length =
      (buildStmts "hip" [goodEntry]).length :=
  handleIngest_all_ops_failed_still_multiStatus ⟨"hip", [goodEntry]⟩ allFailStore
    (by decide) (by decide) (by decide) (by decide)

/-! ## Session lifecycle lemmas -/

theorem endSession_absent (n et : String) (db : List SessionRow)
    (hn : n ≠ "") (hs : findSessionRow db n = none) :
    handleEndSession n et db = (db, .notFound n) := by
  have hall : ∀ x ∈ db, ¬ (x.experiment_name = n) := by
    intro x hx
    have := List.find?_eq_none.mp hs x hx
    simpa using this
  have hfilter : (db.filter fun s => s.experiment_name = n) = [] :=
    List.filter_eq_nil_iff.mpr (by intro x hx; simpa using hall x hx)
  have hmap :
      (db.map fun s =>
        if s.experiment_name = n then { s with end_time := some et } else s) = db := by
    have hpt : ∀ x ∈ db,
        (if x.experiment_name = n then { x with end_time := some et } else x) = x :=
      fun x hx => if_neg (hall x hx)
    rw [List.map_congr_left hpt]
    simp
  simp only [handleEndSession, if_neg hn, updateSessionEnd, hfilter, hmap,
    List.length_nil, gt_iff_lt, lt_self_iff_false, if_false, if_true, ite_false]

theorem endSession_present (n et : String) (db : List SessionRow) (s : SessionRow)
    (hn : n ≠ "") (hs : findSessionRow db n = some s) :
    handleEndSession n et db =
      ((db.map fun t =>
         if t.experiment_name = n then { t with end_time := some et } else t),
       .okEnded n et) ∧
    findSessionRow (handleEndSession n et db).1 n =
      some { s with end_time := some et } := by
  have hmem : s ∈ db := List.mem_of_find?_eq_some hs
  have hname : s.experiment_name = n := by simpa using List.find?_some hs
  have hpos : 0 < (db.filter fun t => t.experiment_name = n).length := by
    refine List.length_pos.mpr ?_
    intro hnil
    have hsf : s ∈ db.filter fun t => t.experiment_name = n :=
      List.mem_filter.mpr ⟨hmem, by simp [hname]⟩
    rw [hnil] at hsf
    exact absurd hsf (List.not_mem_nil s)
  have heq : handleEndSession n et db =
      ((db.map fun t =>
         if t.experiment_name = n then { t with end_time := some et } else t),
       .okEnded n et) := by
    simp only [handleEndSession, if_neg hn, updateSessionEnd, gt_iff_lt]
    rw [if_pos hpos]
    simp
  refine ⟨heq, ?_⟩
  rw [heq]
  unfold findSessionRow
  rw [List.find?_map]
  have hcomp : ((fun t : SessionRow => decide (t.experiment_name = n)) ∘
      (fun t => if t.experiment_name = n then { t with end_time := some et } else t)) =
      fun t : SessionRow => decide (t.experiment_name = n) := by
    funext t
    by_cases h : t.experiment_name = n <;> simp [h]
  rw [hcomp]
  have hfind : (db.find? fun t => decide (t.experiment_name = n)) = some s := hs
  rw [hfind]
  simp [Option.map_some, hname]

/-- **C5.** For every session name already present in the registry, a
`start(name)` call has the store's unique-identity constraint reject the
INSERT; the handler classifies the error message as a conflict and answers
409 naming the offending session, and the registry — in particular the
existing session's row and its start time — is left unchanged. -/
theorem handleStartSession_duplicate_conflict (n now : String)
    (notes : Option String) (db : List SessionRow) (s : SessionRow)
    (hn : n ≠ "") (hs : findSessionRow db n = some s) :
    handleStartSession n notes now db = (db, .conflict n) ∧
    findSessionRow (handleStartSession n notes now db).1 n = some s := by
  have hmem : s ∈ db := List.mem_of_find?_eq_some hs
  have hname : s.experiment_name = n := by simpa using List.find?_some hs
  have hany : db.any (fun t => t.experiment_name = n) = true := by
    rw [List.any_eq_true]
    exact ⟨s, hmem, by simp [hname]⟩
  have hcontains : charsContain "unique constraint failed".toList
      (lowerChars (uniqueViolationMsg.toList)) = true := by decide
  have heq : handleStartSession n notes now db = (db, .conflict n) := by
    simp only [handleStartSession, if_neg hn, insertSessionRow, hany, if_true,
      ite_true, hcontains, Option.getD_some, true_or, if_pos]
    simp
  exact ⟨heq, by rw [heq]; exact hs⟩

/-- Witness for C5: `start("exp1")` against a registry already holding
`exp1` answers the 409 conflict and leaves the registry row (start time
`2020-01-01T00:00:00Z`) unchanged. -/
theorem handleStartSession_duplicate_conflict_witness :
    handleStartSession "exp1" none "2020-01-02T00:00:00Z"
        [⟨"exp1", "2020-01-01T00:00:00Z", none, none⟩] =
      ([⟨"exp1", "2020-01-01T00:00:00Z", none, none⟩], .conflict "exp1") ∧
    findSessionRow
        (handleStartSession "exp1" none "2020-01-02T00:00:00Z"
          [⟨"exp1", "2020-01-01T00:00:00Z", none, none⟩]).1 "exp1" =
      some ⟨"exp1", "2020-01-01T00:00:00Z", none, none⟩ :=
  handleStartSession_duplicate_conflict "exp1" "2020-01-02T00:00:00Z" none
    [⟨"exp1", "2020-01-01T00:00:00Z", none, none⟩]
    ⟨"exp1", "2020-01-01T00:00:00Z", none, none⟩ (by decide) (by decide)

/-- **C6.** `end(name)` on a name never started answers 404 NotFound and
changes nothing; `end(name)` on a present session succeeds, sets its
`end_time` (state closed); a second `end(name)` also succeeds, overwriting
`end_time` with the newly supplied later instant. -/
theorem handleEndSession_spec (n et et2 : String) (db : List SessionRow)
    (s : SessionRow) (hn : n ≠ "") :
    (findSessionRow db n = none →
      handleEndSession n et db = (db, .notFound n)) ∧
    (findSessionRow db n = some s →
      (handleEndSession n et db).2 = .okEnded n et ∧
      findSessionRow (handleEndSession n et db).1 n =
        some { s with end_time := some et } ∧
      (handleEndSession n et2 (handleEndSession n et db).1).2 = .okEnded n et2 ∧
      findSessionRow (handleEndSession n et2 (handleEndSession n et db).1).1 n =
        some { s with end_time := some et2 }) := by
  constructor
  · intro hnone
    exact endSession_absent n et db hn hnone
  · intro hs
    obtain ⟨heq1, hfind1⟩ := endSession_present n et db s hn hs
    have h2 := endSession_present n et2 (handleEndSession n et db).1
      { s with end_time := some et } hn hfind1
    exact ⟨by rw [heq1], hfind1, by rw [h2.1], h2.2⟩

/-- Witness for C6: with `exp1` open (started at `T0`), ending at `T1`
succeeds and closes it; ending again at `T2` succeeds and overwrites;
the never-started branch holds vacuously on this registry. -/
theorem handleEndSession_spec_witness :
    (findSessionRow [⟨"exp1", "T0", none, none⟩] "exp1" = none →
      handleEndSession "exp1" "T1" [⟨"exp1", "T0", none, none⟩] =
        ([⟨"exp1", "T0", none, none⟩], .notFound "exp1")) ∧
    (findSessionRow [⟨"exp1", "T0", none, none⟩] "exp1" =
        some ⟨"exp1", "T0", none, none⟩ →
      (handleEndSession "exp1" "T1" [⟨"exp1", "T0", none, none⟩]).2 =
        .okEnded "exp1" "T1" ∧
      findSessionRow (handleEndSession "exp1" "T1" [⟨"exp1", "T0", none, none⟩]).1
          "exp1" =
        some { (⟨"exp1", "T0", none, none⟩ : SessionRow) with end_time := some "T1" } ∧
      (handleEndSession "exp1" "T2"
          (handleEndSession "exp1" "T1" [⟨"exp1", "T0", none, none⟩]).1).2 =
        .okEnded "exp1" "T2" ∧
      findSessionRow
          (handleEndSession "exp1" "T2"
            (handleEndSession "exp1" "T1" [⟨"exp1", "T0", none, none⟩]).1).1
          "exp1" =
        some { (⟨"exp1", "T0", none, none⟩ : SessionRow) with end_time := some "T2" }) :=
  handleEndSession_spec "exp1" "T1" "T2" [⟨"exp1", "T0", none, none⟩]
    ⟨"exp1", "T0", none, none⟩ (by decide)

/-! ## Order properties of the `ORDER BY timestamp, device` key -/

theorem keyRel_iff (a b : GaitDataRecord) :
    keyRel a b ↔
      a.timestamp < b.timestamp ∨
        (a.timestamp = b.timestamp ∧ a.device ≤ b.device) := by
  simp [keyRel, keyLe, Bool.or_eq_true, Bool.and_eq_true, decide_eq_true_iff]

instance : IsTotal GaitDataRecord keyRel := by
  constructor
  intro a b
  rw [keyRel_iff, keyRel_iff]
  rcases lt_trichotomy a.timestamp b.timestamp with h | h | h
  · exact Or.inl (Or.inl h)
  · rcases le_total a.device b.device with hd | hd
    · exact Or.inl (Or.inr ⟨h, hd⟩)
    · exact Or.inr (Or.inr ⟨h.symm, hd⟩)
  · exact Or.inr (Or.inl h)

instance : IsTrans GaitDataRecord keyRel := by
  constructor
  intro a b c hab hbc
  rw [keyRel_iff] at hab hbc ⊢
  rcases hab with hab | ⟨hab, had⟩
  · rcases hbc with hbc | ⟨hbc, _⟩
    · exact Or.inl (hab.trans hbc)
    · exact Or.inl (hbc ▸ hab)
  · rcases hbc with hbc | ⟨hbc, hbd⟩
    · exact Or.inl (hab ▸ hbc)
    · exact Or.inr ⟨hab.trans hbc, had.trans hbd⟩

/-- **C4.** For a session that exists but has no end time (state open), the
window query does not execute the range query — the result is the same for
every content of the reading store — and answers the distinct non-error
202 "open, data incomplete" result with the known start time, count zero
and an empty reading list. -/
theorem handleQuery_open_incomplete (n : String) (db : List SessionRow)
    (s : SessionRow) (readings readings' : List GaitDataRecord)
    (hn : n ≠ "") (hs : findSessionRow db n = some s) (he : s.end_time = none) :
    handleQueryDataByExperimentName (some n) db readings =
      .ok { experiment_name := n, session_notes := jsStrOrNull s.notes,
            start_time := s.start_time, end_time := none, data_count := 0,
            gait_data_records := [], status := 202 } ∧
    handleQueryDataByExperimentName (some n) db readings =
      handleQueryDataByExperimentName (some n) db readings' := by
  have h : ∀ rs : List GaitDataRecord,
      handleQueryDataByExperimentName (some n) db rs =
        .ok { experiment_name := n, session_notes := jsStrOrNull s.notes,
              start_time := s.start_time, end_time := none, data_count := 0,
              gait_data_records := [], status := 202 } := by
    intro rs
    simp only [handleQueryDataByExperimentName, if_neg hn, hs, he]
  exact ⟨h readings, (h readings).trans (h readings').symm⟩

/-- Witness for C4: an open session (`end_time` null) answers the 202
incomplete result with zero count and an empty list, for two different
reading-store contents alike. -/
theorem handleQuery_open_incomplete_witness :
    handleQueryDataByExperimentName (some "exp1")
        [⟨"exp1", "2020-01-01T00:00:00Z", none, none⟩]
        [⟨"hip", "2020-01-01T00:00:05Z", "[1]", none⟩] =
      .ok { experiment_name := "exp1", session_notes := none,
            start_time := "2020-01-01T00:00:00Z", end_time := none,
            data_count := 0, gait_data_records := [], status := 202 } ∧
    handleQueryDataByExperimentName (some "exp1")
        [⟨"exp1", "2020-01-01T00:00:00Z", none, none⟩]
        [⟨"hip", "2020-01-01T00:00:05Z", "[1]", none⟩] =
      handleQueryDataByExperimentName (some "exp1")
        [⟨"exp1", "2020-01-01T00:00:00Z", none, none⟩] [] :=
  handleQuery_open_incomplete "exp1" [⟨"exp1", "2020-01-01T00:00:00Z", none, none⟩]
    ⟨"exp1", "2020-01-01T00:00:00Z", none, none⟩
    [⟨"hip", "2020-01-01T00:00:05Z", "[1]", none⟩] [] (by decide) (by decide) rfl

/-- **C1.** For a closed session (end time set), the window query answers
200 with exactly the stored readings whose timestamp satisfies
`start_time ≤ timestamp ≤ end_time` (a permutation of the boundary-inclusive
filter of the store — strictly-outside readings excluded), ordered primarily
by timestamp ascending and secondarily by device ascending, with
`data_count` equal to the number of matches; an empty matching set yields
the same non-error response with count zero. -/
theorem handleQuery_closed_window (n : String) (db : List SessionRow)
    (s : SessionRow) (et : String) (readings : List GaitDataRecord)
    (hn : n ≠ "") (hs : findSessionRow db n = some s)
    (he : s.end_time = some et) (het : et ≠ "") :
    handleQueryDataByExperimentName (some n) db readings =
      .ok { experiment_name := n, session_notes := jsStrOrNull s.notes,
            start_time := s.start_time, end_time := some et,
            data_count := (selectGaitRange readings s.start_time et).length,
            gait_data_records := selectGaitRange readings s.start_time et,
            status := 200 } ∧
    List.Perm (selectGaitRange readings s.start_time et)
      (readings.filter (inWindow s.start_time et)) ∧
    List.Pairwise keyRel (selectGaitRange readings s.start_time et) ∧
    (readings.filter (inWindow s.start_time et) = [] →
      selectGaitRange readings s.start_time et = [] ∧
      (selectGaitRange readings s.start_time et).length = 0) := by
  refine ⟨?_, ?_, ?_, ?_⟩
  · simp only [handleQueryDataByExperimentName, if_neg hn, hs, he, if_neg het]
  · exact List.perm_insertionSort keyRel _
  · exact List.sorted_insertionSort keyRel _
  · intro hf
    have hperm : List.Perm (selectGaitRange readings s.start_time et) [] := by
      unfold selectGaitRange
      rw [hf]
      exact List.Perm.nil
    have hnil := List.Perm.eq_nil hperm
    exact ⟨hnil, by rw [hnil]; rfl⟩

/-- Witness for C1: a closed window `[T0, T0+10s]` over a store holding two
in-window readings (equal timestamps, devices `ankle`/`hip`) and one
reading strictly outside; the response is 200, the matches are returned
sorted by timestamp then device, and the outside reading is excluded. -/
theorem handleQuery_closed_window_witness :
    handleQueryDataByExperimentName (some "exp1")
        [⟨"exp1", "2020-01-01T00:00:00Z", some "2020-01-01T00:00:10Z", none⟩]
        [⟨"hip", "2020-01-01T00:00:05Z", "[1]", none⟩,
         ⟨"ankle", "2020-01-01T00:00:05Z", "[2]", none⟩,
         ⟨"hip", "2020-01-01T00:01:00Z", "[3]", none⟩] =
      .ok { experiment_name := "exp1", session_notes := none,
            start_time := "2020-01-01T00:00:00Z",
            end_time := some "2020-01-01T00:00:10Z",
            data_count := (selectGaitRange
              [⟨"hip", "2020-01-01T00:00:05Z", "[1]", none⟩,
               ⟨"ankle", "2020-01-01T00:00:05Z", "[2]", none⟩,
               ⟨"hip", "2020-01-01T00:01:00Z", "[3]", none⟩]
              "2020-01-01T00:00:00Z" "2020-01-01T00:00:10Z").length,
            gait_data_records := selectGaitRange
              [⟨"hip", "2020-01-01T00:00:05Z", "[1]", none⟩,
               ⟨"ankle", "2020-01-01T00:00:05Z", "[2]", none⟩,
               ⟨"hip", "2020-01-01T00:01:00Z", "[3]", none⟩]
              "2020-01-01T00:00:00Z" "2020-01-01T00:00:10Z",
            status := 200 } ∧
    List.Perm (selectGaitRange
        [⟨"hip", "2020-01-01T00:00:05Z", "[1]", none⟩,
         ⟨"ankle", "2020-01-01T00:00:05Z", "[2]", none⟩,
         ⟨"hip", "2020-01-01T00:01:00Z", "[3]", none⟩]
        "2020-01-01T00:00:00Z" "2020-01-01T00:00:10Z")
      (List.filter (inWindow "2020-01-01T00:00:00Z" "2020-01-01T00:00:10Z")
        [⟨"hip", "2020-01-01T00:00:05Z", "[1]", none⟩,
         ⟨"ankle", "2020-01-01T00:00:05Z", "[2]", none⟩,
         ⟨"hip", "2020-01-01T00:01:00Z", "[3]", none⟩]) ∧
    List.Pairwise keyRel (selectGaitRange
        [⟨"hip", "2020-01-01T00:00:05Z", "[1]", none⟩,
         ⟨"ankle", "2020-01-01T00:00:05Z", "[2]", none⟩,
         ⟨"hip", "2020-01-01T00:01:00Z", "[3]", none⟩]
        "2020-01-01T00:00:00Z" "2020-01-01T00:00:10Z") ∧
    (List.filter (inWindow "2020-01-01T00:00:00Z" "2020-01-01T00:00:10Z")
        [⟨"hip", "2020-01-01T00:00:05Z", "[1]", none⟩,
         ⟨"ankle", "2020-01-01T00:00:05Z", "[2]", none⟩,
         ⟨"hip", "2020-01-01T00:01:00Z", "[3]", none⟩] = [] →
      selectGaitRange
          [⟨"hip", "2020-01-01T00:00:05Z", "[1]", none⟩,
           ⟨"ankle", "2020-01-01T00:00:05Z", "[2]", none⟩,
           ⟨"hip", "2020-01-01T00:01:00Z", "[3]", none⟩]
          "2020-01-01T00:00:00Z" "2020-01-01T00:00:10Z" = [] ∧
      (selectGaitRange
          [⟨"hip", "2020-01-01T00:00:05Z", "[1]", none⟩,
           ⟨"ankle", "2020-01-01T00:00:05Z", "[2]", none⟩,
           ⟨"hip", "2020-01-01T00:01:00Z", "[3]", none⟩]
          "2020-01-01T00:00:00Z" "2020-01-01T00:00:10Z").length = 0) :=
  handleQuery_closed_window "exp1"
    [⟨"exp1", "2020-01-01T00:00:00Z", some "2020-01-01T00:00:10Z", none⟩]
    ⟨"exp1", "2020-01-01T00:00:00Z", some "2020-01-01T00:00:10Z", none⟩
    "2020-01-01T00:00:10Z"
    [⟨"hip", "2020-01-01T00:00:05Z", "[1]", none⟩,
     ⟨"ankle", "2020-01-01T00:00:05Z", "[2]", none⟩,
     ⟨"hip", "2020-01-01T00:01:00Z", "[3]", none⟩]
    (by decide) (by decide) rfl (by decide)

/-! ## Round-trip lemmas: decimal digits -/

theorem digitChar_isDigit (d : Nat) (h : d < 10) : (digitChar d).isDigit = true := by
  interval_cases d <;> decide

theorem digitChar_val (d : Nat) (h : d < 10) : (digitChar d).toNat - 48 = d := by
  interval_cases d <;> decide

theorem natDigitsAux_fuel_irrel :
    ∀ (f1 : Nat) (f2 n : Nat), n < f1 → n < f2 →
      natDigitsAux f1 n = natDigitsAux f2 n := by
  intro f1
  induction f1 with
  | zero => intro f2 n h1 _; omega
  | succ f ih =>
    intro f2 n h1 h2
    cases f2 with
    | zero => omega
    | succ g =>
      simp only [natDigitsAux]
      by_cases h : n < 10
      · simp [h]
      · have hd : n / 10 < n := Nat.div_lt_self (by omega) (by omega)
        simp only [h, if_false, ite_false]
        rw [ih g (n / 10) (by omega) (by omega)]

theorem natDigits_eq (n : Nat) :
    natDigits n =
      if n < 10 then [digitChar n]
      else natDigits (n / 10) ++ [digitChar (n % 10)] := by
  by_cases h : n < 10
  · simp [natDigits, natDigitsAux, h]
  · have hd : n / 10 < n := Nat.div_lt_self (by omega) (by omega)
    simp only [natDigits, natDigitsAux, h, if_false, ite_false]
    rw [natDigitsAux_fuel_irrel n (n / 10 + 1) (n / 10) (by omega) (by omega)]
    simp only [natDigitsAux]

theorem natDigits_ne_nil (n : Nat) : natDigits n ≠ [] := by
  rw [natDigits_eq]
  by_cases h : n < 10 <;> simp [h]

theorem natDigits_all_digit (n : Nat) : ∀ c ∈ natDigits n, c.isDigit = true := by
  induction n using Nat.strong_induction_on with
  | _ n ih =>
    rw [natDigits_eq]
    by_cases h : n < 10
    · simp only [h, if_true, ite_true, List.mem_singleton]
      intro c hc
      subst hc
      exact digitChar_isDigit n h
    · simp only [h, if_false, ite_false]
      intro c hc
      rw [List.mem_append] at hc
      rcases hc with hc | hc
      · exact ih (n / 10) (Nat.div_lt_self (by omega) (by omega)) c hc
      · rw [List.mem_singleton] at hc
        subst hc
        exact digitChar_isDigit _ (Nat.mod_lt _ (by omega))

theorem digitsVal_append_singleton (ds : List Char) (c : Char) :
    digitsVal (ds ++ [c]) = 10 * digitsVal ds + (c.toNat - 48) := by
  simp [digitsVal, List.foldl_append]

theorem digitsVal_natDigits (n : Nat) : digitsVal (natDigits n) = n := by
  induction n using Nat.strong_induction_on with
  | _ n ih =>
    rw [natDigits_eq]
    by_cases h : n < 10
    · simp only [h, if_true, ite_true, digitsVal, List.foldl_cons, List.foldl_nil]
      rw [Nat.mul_zero, Nat.zero_add]
      exact digitChar_val n h
    · have hd : n / 10 < n := Nat.div_lt_self (by omega) (by omega)
      rw [if_neg h, digitsVal_append_singleton, ih (n / 10) hd,
        digitChar_val _ (Nat.mod_lt _ (by omega))]
      omega

/-- The next input character (if any) is not a decimal digit. -/
def headNotDigit : List Char → Prop
  | [] => True
  | c :: _ => c.isDigit = false

theorem headNotDigit_nil : headNotDigit [] := trivial

theorem headNotDigit_cons {c : Char} {cs : List Char} (h : c.isDigit = false) :
    headNotDigit (c :: cs) := h

theorem takeDigits_append :
    ∀ (ds rest : List Char), (∀ c ∈ ds, c.isDigit = true) → headNotDigit rest →
      takeDigits (ds ++ rest) = (ds, rest)
  | [], rest, _, hrest => by
    cases rest with
    | nil => rfl
    | cons c cs =>
      have hc : c.isDigit = false := hrest
      simp [takeDigits, hc]
  | d :: ds, rest, hds, hrest => by
    have hd : d.isDigit = true := hds d (List.mem_cons_self d ds)
    have ih := takeDigits_append ds rest
      (fun x hx => hds x (List.mem_cons_of_mem d hx)) hrest
    simp [takeDigits, hd, ih]

theorem parseNatChars_append (n : Nat) (rest : List Char)
    (hrest : headNotDigit rest) :
    parseNatChars (natDigits n ++ rest) = some (n, rest) := by
  unfold parseNatChars
  rw [takeDigits_append _ _ (natDigits_all_digit n) hrest]
  simp [natDigits_ne_nil n, digitsVal_natDigits]

theorem parseIntChars_append (i : Int) (rest : List Char)
    (hrest : headNotDigit rest) :
    parseIntChars (intChars i ++ rest) = some (i, rest) := by
  unfold intChars
  by_cases h : i < 0
  · rw [if_pos h]
    simp only [List.cons_append, parseIntChars, if_pos rfl]
    rw [parseNatChars_append _ _ hrest]
    have habs : ((i.natAbs : Int)) = -i := by omega
    simp [habs]
  · rw [if_neg h]
    obtain ⟨c, cs, hcons⟩ : ∃ c cs, natDigits i.toNat = c :: cs := by
      cases hnd : natDigits i.toNat with
      | nil => exact absurd hnd (natDigits_ne_nil _)
      | cons c cs => exact ⟨c, cs, rfl⟩
    have hcdig : c.isDigit = true :=
      natDigits_all_digit _ c (by rw [hcons]; exact List.mem_cons_self c cs)
    have hcne : c ≠ '-' := by
      intro hc
      subst hc
      exact absurd hcdig (by decide)
    rw [hcons, List.cons_append]
    simp only [parseIntChars, if_neg hcne]
    rw [← List.cons_append, ← hcons, parseNatChars_append _ _ hrest]
    have htn : ((i.toNat : Int)) = i := by omega
    simp [htn]

theorem expectLit_append (lit rest : List Char) :
    expectLit lit (lit ++ rest) = some rest := by
  induction lit with
  | nil => rfl
  | cons c cs ih => simp [expectLit, ih]

/-! ## Round-trip lemmas: quaternion records -/

theorem serializeQuat_chars (q : QuatSample) :
    serializeJsonChars (quatToJson q) =
      ['{', '"', 'w', '"', ':'] ++ (intChars q.w ++
        ([',', '"', 'x', '"', ':'] ++ (intChars q.x ++
          ([',', '"', 'y', '"', ':'] ++ (intChars q.y ++
            ([',', '"', 'z', '"', ':'] ++ (intChars q.z ++ ['}']))))))) := by
  simp only [quatToJson, serializeJsonChars, serializeFields,
    show escapeChars "w".toList = ['w'] from rfl,
    show escapeChars "x".toList = ['x'] from rfl,
    show escapeChars "y".toList = ['y'] from rfl,
    show escapeChars "z".toList = ['z'] from rfl]
  simp [List.append_assoc, List.cons_append, List.nil_append]

theorem parseIntChars_append_comma (i : Int) (cs rest : List Char) :
    parseIntChars (intChars i ++ ((',' :: cs) ++ rest)) =
      some (i, (',' :: cs) ++ rest) :=
  parseIntChars_append i ((',' :: cs) ++ rest) (headNotDigit_cons (by decide))

theorem parseIntChars_append_brace (i : Int) (rest : List Char) :
    parseIntChars (intChars i ++ (['}'] ++ rest)) = some (i, ['}'] ++ rest) :=
  parseIntChars_append i (['}'] ++ rest) (headNotDigit_cons (by decide))

theorem parseQuat_round (q : QuatSample) (rest : List Char) :
    parseQuat (serializeJsonChars (quatToJson q) ++ rest) = some (q, rest) := by
  rw [serializeQuat_chars]
  simp only [List.append_assoc]
  simp only [parseQuat, expectLit_append, parseIntChars_append_comma,
    parseIntChars_append_brace]

theorem parseQuatListAux_round :
    ∀ (l : List QuatSample) (q : QuatSample) (fuel : Nat) (rest : List Char),
      l.length < fuel →
      parseQuatListAux fuel
          (serializeArr ((q :: l).map quatToJson) ++ (']' :: rest)) =
        some (q :: l, rest) := by
  intro l
  induction l with
  | nil =>
    intro q fuel rest hfuel
    cases fuel with
    | zero => omega
    | succ f =>
      show parseQuatListAux (f + 1)
          (serializeJsonChars (quatToJson q) ++ (']' :: rest)) = _
      simp only [parseQuatListAux, parseQuat_round]
  | cons q' l' ih =>
    intro q fuel rest hfuel
    cases fuel with
    | zero => simp at hfuel
    | succ f =>
      have hlen : l'.length < f := by
        simp only [List.length_cons] at hfuel
        omega
      show parseQuatListAux (f + 1)
          ((serializeJsonChars (quatToJson q) ++
            ',' :: serializeArr ((q' :: l').map quatToJson)) ++ (']' :: rest)) = _
      rw [List.append_assoc, List.cons_append]
      simp only [parseQuatListAux, parseQuat_round]
      rw [ih q' f rest hlen]

theorem one_le_serializeQuat_length (q : QuatSample) :
    1 ≤ (serializeJsonChars (quatToJson q)).length := by
  rw [serializeQuat_chars]
  simp

theorem le_serializeArr_length :
    ∀ (l : List QuatSample) (q : QuatSample),
      (q :: l).length ≤ (serializeArr ((q :: l).map quatToJson)).length := by
  intro l
  induction l with
  | nil =>
    intro q
    show 1 ≤ (serializeJsonChars (quatToJson q)).length
    exact one_le_serializeQuat_length q
  | cons q' l' ih =>
    intro q
    show (q :: q' :: l').length ≤
      (serializeJsonChars (quatToJson q) ++
        ',' :: serializeArr ((q' :: l').map quatToJson)).length
    have h1 := one_le_serializeQuat_length q
    have h2 := ih q'
    simp only [List.length_cons, List.length_append] at h2 ⊢
    omega

theorem serializeArr_quats_head :
    ∀ (q : QuatSample) (l : List QuatSample),
      ∃ cs, serializeArr ((q :: l).map quatToJson) = '{' :: cs := by
  intro q l
  cases l with
  | nil =>
    show ∃ cs, serializeJsonChars (quatToJson q) = '{' :: cs
    rw [serializeQuat_chars]
    exact ⟨_, rfl⟩
  | cons q' l' =>
    show ∃ cs, serializeJsonChars (quatToJson q) ++
        ',' :: serializeArr ((q' :: l').map quatToJson) = '{' :: cs
    rw [serializeQuat_chars]
    exact ⟨_, rfl⟩

theorem parseQuatList_round (l : List QuatSample) (hl : l ≠ []) :
    parseQuatList (serializeJson (.jarr (l.map quatToJson))) = some l := by
  obtain ⟨q, l', rfl⟩ := List.exists_cons_of_ne_nil hl
  obtain ⟨cs, hcs⟩ := serializeArr_quats_head q l'
  unfold parseQuatList
  rw [show (serializeJson (.jarr ((q :: l').map quatToJson))).toList =
    '[' :: (serializeArr ((q :: l').map quatToJson) ++ [']']) from rfl]
  show parseListBody (serializeArr ((q :: l').map quatToJson) ++ [']']) = _
  unfold parseListBody
  have hhead : ¬ ((serializeArr ((q :: l').map quatToJson) ++ [']']).head? =
      some ']') := by
    rw [hcs]
    simp
  rw [if_neg hhead]
  have hfuel : l'.length <
      (serializeArr ((q :: l').map quatToJson) ++ [']']).length := by
    have := le_serializeArr_length l' q
    simp only [List.length_cons, List.length_append, List.length_singleton] at this ⊢
    omega
  rw [parseQuatListAux_round l' q _ [] hfuel]

/-- **C8.** Round trip: a non-empty list of 4-component records submitted as
an entry's quaternion sample list is accepted by per-entry validation; the
INSERT built for the entry stores `JSON.stringify` of that list, the window
query hands matching rows back verbatim (membership preserved through the
range select), and the stored payload deserializes to the identical ordered
list of records. -/
theorem ingest_query_roundTrip (l : List QuatSample) (d ts : String)
    (note : Option String) (readings : List GaitDataRecord) (a b : String)
    (hl : l ≠ [])
    (hr : mkGaitRow d ⟨.jstr ts, .jarr (l.map quatToJson), note⟩ ∈ readings)
    (hw : inWindow a b (mkGaitRow d ⟨.jstr ts, .jarr (l.map quatToJson), note⟩) = true) :
    validSecondEntry ⟨.jstr ts, .jarr (l.map quatToJson), note⟩ = true ∧
    (mkGaitRow d ⟨.jstr ts, .jarr (l.map quatToJson), note⟩).quaternions =
      serializeJson (.jarr (l.map quatToJson)) ∧
    mkGaitRow d ⟨.jstr ts, .jarr (l.map quatToJson), note⟩ ∈
      selectGaitRange readings a b ∧
    parseQuatList
        ((mkGaitRow d ⟨.jstr ts, .jarr (l.map quatToJson), note⟩).quaternions) =
      some l := by
  obtain ⟨q, l', rfl⟩ := List.exists_cons_of_ne_nil hl
  refine ⟨rfl, rfl, ?_, ?_⟩
  · have hmemf : mkGaitRow d ⟨.jstr ts, .jarr ((q :: l').map quatToJson), note⟩ ∈
        readings.filter (inWindow a b) := List.mem_filter.mpr ⟨hr, hw⟩
    exact ((List.perm_insertionSort keyRel _).mem_iff).mpr hmemf
  · exact parseQuatList_round (q :: l') (List.cons_ne_nil q l')

/-- Witness for C8: the single-sample list `[{w:1, x:0, y:-2, z:35}]`,
ingested for device `hip` at a timestamp on both boundaries of the
degenerate window `[T, T]` (boundary-inclusive), is returned by the range
select and its stored payload parses back to the identical list. -/
theorem ingest_query_roundTrip_witness :
    validSecondEntry ⟨.jstr "2020-01-01T00:00:01Z",
      .jarr (([⟨1, 0, -2, 35⟩] : List QuatSample).map quatToJson), none⟩ = true ∧
    (mkGaitRow "hip" ⟨.jstr "2020-01-01T00:00:01Z",
      .jarr (([⟨1, 0, -2, 35⟩] : List QuatSample).map quatToJson), none⟩).quaternions =
      serializeJson (.jarr (([⟨1, 0, -2, 35⟩] : List QuatSample).map quatToJson)) ∧
    mkGaitRow "hip" ⟨.jstr "2020-01-01T00:00:01Z",
      .jarr (([⟨1, 0, -2, 35⟩] : List QuatSample).map quatToJson), none⟩ ∈
      selectGaitRange
        [mkGaitRow "hip" ⟨.jstr "2020-01-01T00:00:01Z",
          .jarr (([⟨1, 0, -2, 35⟩] : List QuatSample).map quatToJson), none⟩]
        "2020-01-01T00:00:01Z" "2020-01-01T00:00:01Z" ∧
    parseQuatList
        ((mkGaitRow "hip" ⟨.jstr "2020-01-01T00:00:01Z",
          .jarr (([⟨1, 0, -2, 35⟩] : List QuatSample).map quatToJson), none⟩).quaternions) =
      some [⟨1, 0, -2, 35⟩] :=
  ingest_query_roundTrip [⟨1, 0, -2, 35⟩] "hip" "2020-01-01T00:00:01Z" none
    [mkGaitRow "hip" ⟨.jstr "2020-01-01T00:00:01Z",
      .jarr (([⟨1, 0, -2, 35⟩] : List QuatSample).map quatToJson), none⟩]
    "2020-01-01T00:00:01Z" "2020-01-01T00:00:01Z"
    (List.cons_ne_nil _ _) (List.mem_singleton.mpr rfl)
    (by simp [inWindow, mkGaitRow, JsonVal.getStr])
